import Mathlib

/-!
Verification development for the LiDAR-DataAnalysis-and-Visualization
repository (FlaskDataService backend).

The two source files modelled here are:
  * `src/FlaskDataService/src/parser.py` — PCD header parsing
    (`parse_header`), field-layout construction (`build_dtype`) and frame
    decoding (`read_pcd`);
  * `src/FlaskDataService/src/app.py` — the ingestion bridge
    (`handle_mqtt_message`, `process_message`) and the stream statistics
    (`count_fps_datamesh`).

The embedding is a shallow one.  Python byte strings are `List Nat`
(each entry a byte value), Python floats are represented exactly:
an IEEE-754 `float32`/`float64` cell is carried as its bit pattern
(a `Nat`) together with an exact interpretation into `ℚ`; all the float
values appearing in the modelled paths (decimal literals, decoded
payload scalars) are finite, so the rational interpretation is exact.
Python exceptions are the error side of `Except PyErr`.
Python `dict` metadata is modelled by a closed record of `Option` fields,
with `.error .keyError` where the source would raise `KeyError` and
`.error .nameError` where the source would hit an unbound local.
-/

set_option maxRecDepth 100000

namespace LiDAR

/-- Python exception kinds raised (or raisable) by the modelled code. -/
inductive PyErr
  | valueError
  | typeError
  | keyError
  | nameError
  | notImplementedError
  | indexError
  | zeroDivisionError
  /-- Marker for a float-width cast (`astype`) on a non-float32 `rgb`
  column; this numeric conversion is outside the exact model.  No claim
  and no modelled input reaches it. -/
  | unmodeledFloatCast
  deriving DecidableEq, Repr

/-- Python whitespace as used by `str.split()` / `str.strip()` / `\s`. -/
def isPyWS (c : Char) : Bool :=
  c = ' ' || c = '\t' || c = '\n' || c = '\r' || c = '\x0b' || c = '\x0c'

/-- Regex `\w` (ASCII range; the modelled headers are ASCII). -/
def isWordChar (c : Char) : Bool := c.isAlphanum || c = '_'

/-- Character class `[\w\s./]` of the value group in `parse_header`'s regex. -/
def isClassChar (c : Char) : Bool := isWordChar c || isPyWS c || c = '.' || c = '/'

/-- Strip Python whitespace from both ends (Python `str.strip()`). -/
def stripWS (cs : List Char) : List Char :=
  ((cs.dropWhile isPyWS).reverse.dropWhile isPyWS).reverse

/-- Python `str.strip()` on strings. -/
def pyStrip (s : String) : String := String.mk (stripWS s.data)

/-- Leading sign of a numeric literal; returns the sign and the rest. -/
def parseSign : List Char → Int × List Char
  | '-' :: rest => (-1, rest)
  | '+' :: rest => (1, rest)
  | cs => (1, cs)

/-- Value of a digit run (most significant first). -/
def digitsToNat (ds : List Char) : Nat :=
  ds.foldl (fun a c => 10 * a + (c.toNat - 48)) 0

/-- Split a digit prefix off a character list. -/
def takeDigits (cs : List Char) : List Char × List Char :=
  (cs.takeWhile Char.isDigit, cs.dropWhile Char.isDigit)

/-- Python `float(s)` on decimal literals (optional sign, integer part,
fractional part, optional exponent), returning the exact rational value.
`inf`/`nan` spellings are not modelled: no modelled input contains them. -/
def pyFloat (s : String) : Option ℚ :=
  let cs := stripWS s.data
  let sg := parseSign cs
  let ip := takeDigits sg.2
  let fp :=
    match ip.2 with
    | '.' :: rest => takeDigits rest
    | _ => ([], ip.2)
  if ip.1 = [] ∧ fp.1 = [] then none else
  let mant : ℚ := (digitsToNat ip.1 : ℚ) + (digitsToNat fp.1 : ℚ) / (10 ^ fp.1.length)
  match fp.2 with
  | [] => some ((sg.1 : ℚ) * mant)
  | 'e' :: rest =>
      match parseSign rest with
      | (es, rest2) =>
        match takeDigits rest2 with
        | (ed, rest3) =>
          if ed = [] ∨ rest3 ≠ [] then none
          else some ((sg.1 : ℚ) * mant * (10 : ℚ) ^ (es * (digitsToNat ed : Int)))
  | 'E' :: rest =>
      match parseSign rest with
      | (es, rest2) =>
        match takeDigits rest2 with
        | (ed, rest3) =>
          if ed = [] ∨ rest3 ≠ [] then none
          else some ((sg.1 : ℚ) * mant * (10 : ℚ) ^ (es * (digitsToNat ed : Int)))
  | _ => none

/-- Python `int(s)` (base 10): optional surrounding whitespace, optional
sign, then digits only. -/
def pyInt (s : String) : Option Int :=
  let cs := stripWS s.data
  let sg := parseSign cs
  if sg.2 ≠ [] ∧ sg.2.all Char.isDigit then some (sg.1 * (digitsToNat sg.2 : Int))
  else none

/-- Python `s.split()` (no argument): split on whitespace runs, dropping
empty tokens. -/
def pySplit (s : String) : List String :=
  (s.split (fun c => isPyWS c)).filter (fun t => t ≠ "")

/-- Python `s.split(' ')`: split on every single space, keeping empties. -/
def pySplitSp (s : String) : List String := s.splitOn " "

/-- Model of `re.match('(\w+)\s+([\w\s\./]+)', ln)` from `parse_header`.
Returns `(group1, group2)` on a match.  Group 1 is the maximal leading
`\w+` run; it must be followed by at least one whitespace character; the
greedy `\s+` then leaves group 2 as the maximal `[\w\s./]+` run after the
whitespace — except that when nothing of the class follows the whitespace
run, the regex engine backtracks and group 2 becomes the last whitespace
character itself (possible only when the run has length ≥ 2). -/
def reMatchKV (ln : String) : Option (String × String) :=
  let cs := ln.data
  let w := cs.takeWhile isWordChar
  if w.isEmpty then none else
  let r1 := cs.drop w.length
  let sp := r1.takeWhile isPyWS
  if sp.isEmpty then none else
  let r2 := r1.drop sp.length
  let v := r2.takeWhile isClassChar
  if v.isEmpty then
    if 2 ≤ sp.length then
      match sp.getLast? with
      | some c => some (String.mk w, String.mk [c])
      | none => none
    else none
  else some (String.mk w, String.mk v)

/-- Lower-cased key of a header line, when the key/value regex matches. -/
def keyOf (ln : String) : Option String :=
  (reMatchKV ln).map (fun p => p.1.toLower)

/-- A bounding box captured from the header's inline annotation block
(`parser.py`, `parse_header`).  The `class` dict entry of the source is
the `objClass` field here. -/
structure BoundingBox where
  minx : ℚ
  maxx : ℚ
  miny : ℚ
  maxy : ℚ
  minz : ℚ
  maxz : ℚ
  objClass : String
  deriving DecidableEq, Repr

/-- The `metadata` dictionary built by `parse_header`, as a closed record.
A `none` field models the key being absent from the dict.  `searchSwitch`
is the bbox-capture boolean of the source; `warnings` collects the lines
for which `warnings.warn` fired (regex non-matches). -/
structure PMeta where
  version : Option String := none
  fields : Option (List String) := none
  typeL : Option (List String) := none
  size : Option (List Int) := none
  count : Option (List Int) := none
  width : Option Int := none
  height : Option Int := none
  points : Option Int := none
  viewpoint : Option (List ℚ) := none
  data : Option String := none
  topic : Option String := none
  time : Option String := none
  objects : List BoundingBox := []
  searchSwitch : Bool := false
  warnings : List String := []
  deriving DecidableEq, Repr

/-- `float(coordinates[i])`: `IndexError` when the token is missing,
`ValueError` when it does not parse as a float. -/
def floatAt (toks : List String) (i : Nat) : Except PyErr ℚ :=
  match toks.get? i with
  | none => .error .indexError
  | some t =>
    match pyFloat t with
    | none => .error .valueError
    | some q => .ok q

/-- The bbox-capture branch of `parse_header`'s loop: split the line on
single spaces and read six floats `minx maxx miny maxy minz maxz`,
appending a `BoundingBox` with class `"Object"`. -/
def captureStep (st : PMeta) (ln : String) : Except PyErr PMeta :=
  let toks := pySplitSp ln
  match floatAt toks 0 with
  | .error e => .error e
  | .ok a =>
  match floatAt toks 1 with
  | .error e => .error e
  | .ok b =>
  match floatAt toks 2 with
  | .error e => .error e
  | .ok c =>
  match floatAt toks 3 with
  | .error e => .error e
  | .ok d =>
  match floatAt toks 4 with
  | .error e => .error e
  | .ok e' =>
  match floatAt toks 5 with
  | .error e => .error e
  | .ok f =>
    .ok { st with objects := st.objects ++ [⟨a, b, c, d, e', f, "Object"⟩] }

/-- The six floats of one bbox line, as a pure partial function (used in
theorem statements; `captureStep` is the in-loop form with Python's
error kinds). -/
def bboxOf (ln : String) : Option BoundingBox :=
  let toks := pySplitSp ln
  match (toks.get? 0).bind pyFloat, (toks.get? 1).bind pyFloat, (toks.get? 2).bind pyFloat,
        (toks.get? 3).bind pyFloat, (toks.get? 4).bind pyFloat, (toks.get? 5).bind pyFloat with
  | some a, some b, some c, some d, some e, some f => some ⟨a, b, c, d, e, f, "Object"⟩
  | _, _, _, _, _, _ => none

/-- The header keys with a dispatch branch in `parse_header` (every other
matched key falls through with the metadata unchanged). -/
def activeKeys : List String :=
  ["version", "fields", "type", "size", "count", "width", "height", "points",
   "viewpoint", "data", "minx", "topic", "time", "end"]

/-- Conditions under which a line inside the bbox-capture region is
consumed purely as a bbox: it is not skipped (no `#`, length ≥ 2), does
not start with `end`, and its key/value match (which the source still
runs on it) hits no dispatch branch. -/
def bbLineOK (ln : String) : Prop :=
  ¬(ln.startsWith "#" ∨ ln.length < 2) ∧ ¬ln.startsWith "end" ∧
  ∀ s ∈ activeKeys, keyOf ln ≠ some s

instance (ln : String) : Decidable (bbLineOK ln) := by
  unfold bbLineOK
  infer_instance

/-- `map(int, value.split())`.  The source stores a lazy `map` object and
the conversions run when first consumed; the model runs them eagerly —
every modelled input either has all-valid tokens or is consumed later
anyway, so the observable outcome agrees. -/
def mapIntTokens (ts : List String) : Except PyErr (List Int) :=
  ts.mapM (fun t => match pyInt t with
    | none => .error .valueError
    | some n => .ok n)

/-- `map(float, value.split())`, eager as for `mapIntTokens`. -/
def mapFloatTokens (ts : List String) : Except PyErr (List ℚ) :=
  ts.mapM (fun t => match pyFloat t with
    | none => .error .valueError
    | some q => .ok q)

/-- `int(value)` raising `ValueError` on failure. -/
def pyIntE (s : String) : Except PyErr Int :=
  match pyInt s with
  | none => .error .valueError
  | some n => .ok n

/-- The key/value dispatch chain of `parse_header` (keys already
lower-cased by the caller).  An unrecognized key falls through with the
dict unchanged. -/
def dispatchKV (st : PMeta) (k v : String) : Except PyErr PMeta :=
  if k = "version" then .ok { st with version := some v }
  else if k = "fields" then .ok { st with fields := some (pySplit v) }
  else if k = "type" then .ok { st with typeL := some (pySplit v) }
  else if k = "size" then (mapIntTokens (pySplit v)).map (fun ns => { st with size := some ns })
  else if k = "count" then (mapIntTokens (pySplit v)).map (fun ns => { st with count := some ns })
  else if k = "width" then (pyIntE v).map (fun n => { st with width := some n })
  else if k = "height" then (pyIntE v).map (fun n => { st with height := some n })
  else if k = "points" then (pyIntE v).map (fun n => { st with points := some n })
  else if k = "viewpoint" then (mapFloatTokens (pySplit v)).map (fun qs => { st with viewpoint := some qs })
  else if k = "data" then .ok { st with data := some (pyStrip v).toLower }
  else if k = "minx" then .ok { st with searchSwitch := true }
  else if k = "topic" then .ok { st with topic := some v }
  else if k = "time" then .ok { st with time := some v }
  else if k = "end" then .ok { st with searchSwitch := false }
  else .ok st

/-- One iteration of `parse_header`'s line loop.  Comments and short lines
are skipped; while capturing, a non-`end`-prefixed line is consumed as a
bbox — and, the source having no `continue` there, the same line then
still runs through the key/value regex (a non-match only appends a
warning; a match on a leading integer token hits no dispatch branch). -/
def processLine (st : PMeta) (ln : String) : Except PyErr PMeta :=
  if ln.startsWith "#" ∨ ln.length < 2 then .ok st
  else
    match (if ¬ ln.startsWith "end" ∧ st.searchSwitch then captureStep st ln else .ok st) with
    | .error e => .error e
    | .ok st1 =>
      match reMatchKV ln with
      | none => .ok { st1 with warnings := st1.warnings ++ [ln] }
      | some kv => dispatchKV st1 kv.1.toLower kv.2

/-- The full line loop of `parse_header`. -/
def parseLoop (st : PMeta) : List String → Except PyErr PMeta
  | [] => .ok st
  | ln :: rest =>
    match processLine st ln with
    | .error e => .error e
    | .ok st' => parseLoop st' rest

/-- The post-loop defaults of `parse_header`: `count` (all-ones sized to
`fields` — `KeyError` when `fields` is itself absent), `viewpoint`, and
`version`. -/
def applyDefaults (pm : PMeta) : Except PyErr PMeta :=
  match (if pm.count = none then
    match pm.fields with
    | none => Except.error PyErr.keyError
    | some fl => Except.ok { pm with count := some (List.replicate fl.length (1 : Int)) }
  else Except.ok pm) with
  | .error e => .error e
  | .ok pm1 =>
    let pm2 := if pm1.viewpoint = none then { pm1 with viewpoint := some [0, 0, 0, 1, 0, 0, 0] } else pm1
    .ok (if pm2.version = none then { pm2 with version := some ".7" } else pm2)

/-- `parse_header(lines)` from `parser.py`. -/
def parse_header (lines : List String) : Except PyErr PMeta :=
  match parseLoop {} lines with
  | .error e => .error e
  | .ok pm => applyDefaults pm

/-! ### Field layout (`build_dtype`) -/

/-- The numpy scalar dtypes appearing in `numpy_pcd_type_mappings`. -/
inductive NumpyType
  | float32
  | float64
  | uint8
  | uint16
  | uint32
  | uint64
  | int16
  | int32
  | int64
  deriving DecidableEq, Repr

/-- Byte width of a numpy scalar dtype. -/
def NumpyType.itemsize : NumpyType → Nat
  | .float32 => 4
  | .float64 => 8
  | .uint8 => 1
  | .uint16 => 2
  | .uint32 => 4
  | .uint64 => 8
  | .int16 => 2
  | .int32 => 4
  | .int64 => 8

/-- `pcd_type_to_numpy_type` from `parser.py`: the fixed lookup from a
PCD `(TYPE, SIZE)` pair to a numpy dtype; `none` models the `KeyError`
of an unrecognized pair. -/
def pcd_type_to_numpy_type : String × Int → Option NumpyType
  | ("F", 4) => some .float32
  | ("F", 8) => some .float64
  | ("U", 1) => some .uint8
  | ("U", 2) => some .uint16
  | ("U", 4) => some .uint32
  | ("U", 8) => some .uint64
  | ("I", 2) => some .int16
  | ("I", 4) => some .int32
  | ("I", 8) => some .int64
  | _ => none

/-- A numpy structured dtype: ordered `(name, scalar type)` columns. -/
abbrev Dtype := List (String × NumpyType)

/-- Total byte width of one structured row. -/
def dtypeItemsize (dt : Dtype) : Nat := (dt.map (fun p => p.2.itemsize)).sum

/-- Python's `%04d` formatting of a sub-field index. -/
def fmt04 (i : Nat) : String :=
  let s := toString i
  String.mk (List.replicate (4 - s.length) '0') ++ s

/-- Python `zip` over the four metadata vectors (truncates to the
shortest, as `zip` does). -/
def zip4 : List String → List Int → List String → List Int →
    List (String × Int × String × Int)
  | f :: fs, c :: cs, t :: ts, s :: ss => (f, c, t, s) :: zip4 fs cs ts ss
  | _, _, _, _ => []

/-- The loop body of `build_dtype` acting on the accumulated
`(fieldnames, typenames)` pair for one `(field, count, type, size)`
entry. -/
def buildDtypeStep (acc : List String × List NumpyType) (e : String × Int × String × Int) :
    Except PyErr (List String × List NumpyType) :=
  match pcd_type_to_numpy_type (e.2.2.1, e.2.2.2) with
  | none => .error .keyError
  | some ty =>
    if e.2.1 = 1 then .ok (acc.1 ++ [e.1], acc.2 ++ [ty])
    else .ok (acc.1 ++ (List.range e.2.1.toNat).map (fun i => e.1 ++ "_" ++ fmt04 i),
              acc.2 ++ List.replicate e.2.1.toNat ty)

/-- The `for f, c, t, s in zip(...)` loop of `build_dtype`, accumulating
`(fieldnames, typenames)`. -/
def buildLoop (acc : List String × List NumpyType) :
    List (String × Int × String × Int) → Except PyErr (List String × List NumpyType)
  | [] => .ok acc
  | e :: rest =>
    match buildDtypeStep acc e with
    | .error er => .error er
    | .ok acc' => buildLoop acc' rest

/-- Whether a flattened field name occurs more than once
(`np.dtype` rejects such a name list). -/
def hasRepeatedName : List String → Bool
  | [] => false
  | n :: rest => rest.contains n || hasRepeatedName rest

/-- `build_dtype(metadata)` from `parser.py`: flatten
`fields/count/type/size` into a structured dtype; accessing a missing
metadata key raises `KeyError`, as does an unrecognized `(type, size)`
pair.  The final `np.dtype(list(zip(fieldnames, typenames)))` raises
`ValueError` when a flattened field name occurs more than once. -/
def build_dtype (pm : PMeta) : Except PyErr Dtype :=
  match pm.fields, pm.count, pm.typeL, pm.size with
  | some fl, some cl, some tl, some sl =>
    match buildLoop ([], []) (zip4 fl cl tl sl) with
    | .error e => .error e
    | .ok acc =>
      if hasRepeatedName acc.1 then .error .valueError else .ok (acc.1.zip acc.2)
  | _, _, _, _ => .error .keyError

/-! ### Cell values

A decoded cell is carried as the `Nat` whose binary form is the cell's
byte pattern (little-endian combine of its bytes).  Interpretation into
an exact rational value is per scalar dtype:  IEEE-754 decode for the
float widths (exact for finite values; the exponent-all-ones patterns
have no rational value and do not occur in any modelled input),
two's-complement for the signed integers, identity for the unsigned. -/

/-- Little-endian value of a byte list. -/
def leVal (bs : List Nat) : Nat := bs.foldr (fun b acc => b % 256 + 256 * acc) 0

/-- Two's-complement reading of a `w`-bit pattern. -/
def twos (w : Nat) (p : Nat) : Int :=
  if p < 2 ^ (w - 1) then (p : Int) else (p : Int) - 2 ^ w

/-- Exact value of a finite IEEE-754 binary32 bit pattern. -/
def f32ToRat (p : Nat) : ℚ :=
  let sgn : ℚ := if p / 2 ^ 31 % 2 = 1 then -1 else 1
  let e : Nat := p / 2 ^ 23 % 256
  let m : Nat := p % 2 ^ 23
  if e = 0 then sgn * (m : ℚ) / 2 ^ 149
  else sgn * ((2 ^ 23 + m : ℚ) * 2 ^ e) / 2 ^ 150

/-- Exact value of a finite IEEE-754 binary64 bit pattern. -/
def f64ToRat (p : Nat) : ℚ :=
  let sgn : ℚ := if p / 2 ^ 63 % 2 = 1 then -1 else 1
  let e : Nat := p / 2 ^ 52 % 2048
  let m : Nat := p % 2 ^ 52
  if e = 0 then sgn * (m : ℚ) / 2 ^ 1074
  else sgn * ((2 ^ 52 + m : ℚ) * 2 ^ e) / 2 ^ 1075

/-- Exact rational value of a cell pattern under its dtype. -/
def cellToRat (t : NumpyType) (p : Nat) : ℚ :=
  match t with
  | .float32 => f32ToRat p
  | .float64 => f64ToRat p
  | .uint8 => p
  | .uint16 => p
  | .uint32 => p
  | .uint64 => p
  | .int16 => (twos 16 p : ℚ)
  | .int32 => (twos 32 p : ℚ)
  | .int64 => (twos 64 p : ℚ)

/-- One structured row: split the row's bytes by the layout widths and
combine each field's bytes little-endian. -/
def rowFromBytes (dt : Dtype) (row : List Nat) : List Nat :=
  (dt.foldl (fun (acc : List Nat × List Nat) p =>
    (acc.1 ++ [leVal (acc.2.take p.2.itemsize)], acc.2.drop p.2.itemsize)) ([], row)).1

/-- `np.fromstring(buf, dtype=dtype)` (binary mode): `ValueError` when the
buffer size is not a multiple of the row width (numpy never reads past
the supplied buffer), else one row per full row-width chunk.  The
`POINTS` header value plays no part. -/
def fromstringBin (dt : Dtype) (buf : List Nat) : Except PyErr (List (List Nat)) :=
  let isz := dtypeItemsize dt
  if isz = 0 then .error .valueError
  else if buf.length % isz ≠ 0 then .error .valueError
  else .ok ((List.range (buf.length / isz)).map (fun r =>
    rowFromBytes dt ((buf.drop (r * isz)).take isz)))

/-! ### DataFrame and the RGB unpack -/

/-- One pandas column: name, dtype, and the cell patterns in row order. -/
structure Column where
  name : String
  dtype : NumpyType
  cells : List Nat
  deriving DecidableEq, Repr

/-- `pd.DataFrame(pc_data)`: columns in layout order. -/
abbrev DataFrame := List Column

/-- Build the frame from the structured rows. -/
def toDataFrame (dt : Dtype) (rows : List (List Nat)) : DataFrame :=
  dt.enum.map (fun e => ⟨e.2.1, e.2.2, rows.map (fun r => r.getD e.1 0)⟩)

/-- The colour-unpack block of `read_pcd`: when a column named `rgb`
exists, its float32 values are re-read byte-for-byte as int32
(`astype(np.float32).tostring()` then `np.frombuffer(..., np.int32)` —
the identity on the bit patterns of a float32 column), three uint8
columns `red`/`green`/`blue` are appended from arithmetic shifts and
masks of the signed value, and `rgb` is dropped.  An `rgb` column of any
other dtype would be narrowed/converted by `astype(np.float32)`, a float
rounding step outside this exact model (`unmodeledFloatCast`); no claim
and no modelled frame carries a non-float32 `rgb`. -/
def unpackRGB (df : DataFrame) : Except PyErr DataFrame :=
  match df.find? (fun c => c.name = "rgb") with
  | none => .ok df
  | some col =>
    if col.dtype = .float32 then
      .ok ((df.filter (fun c => ¬ c.name = "rgb")) ++
        [⟨"red", .uint8, col.cells.map (fun p => (((twos 32 p).fdiv (2 ^ 16)).emod 256).toNat)⟩,
         ⟨"green", .uint8, col.cells.map (fun p => (((twos 32 p).fdiv (2 ^ 8)).emod 256).toNat)⟩,
         ⟨"blue", .uint8, col.cells.map (fun p => ((twos 32 p).emod 256).toNat)⟩])
    else .error .unmodeledFloatCast

/-! ### `read_pcd` (the in-memory branch)

Only the `isfilename=False` branch is modelled: it is the branch the
ingestion bridge uses (`read_pcd(data['payload'])`).  The
`isfilename=True` branch is unreachable from the service and in fact can
never return (its tail dereferences `topic_value`, a name bound only in
the in-memory branch). -/

/-- Python `round(x, 2)` as exact decimal rounding (half-to-even) of the
rational cell value; the JSON round-trip in the source applies it to
every coordinate/intensity value. -/
def pyRound2 (q : ℚ) : ℚ :=
  let x := 100 * q
  let f := ⌊x⌋
  let r := x - (f : ℚ)
  (if r < 1 / 2 then (f : ℚ) else if 1 / 2 < r then (f + 1 : ℤ)
   else if f % 2 = 0 then (f : ℚ) else (f + 1 : ℤ)) / 100

/-- Split a byte string on a byte (Python `bytes.split`). -/
def splitOnByte (sep : Nat) (l : List Nat) : List (List Nat) :=
  l.foldr (fun b acc =>
    if b = sep then [] :: acc
    else match acc with
      | h :: t => (b :: h) :: t
      | [] => [[b]]) [[]]

/-- Decode a byte line to text.  The modelled payload header is ASCII,
where UTF-8 decoding is the identity on code points. -/
def bytesToStr (bs : List Nat) : String := String.mk (bs.map Char.ofNat)

/-- First index of a byte pattern (`bytes.find`, -1 when absent). -/
def pyFind (hay pat : List Nat) : Int :=
  match (List.range (hay.length + 1)).find? (fun i => (hay.drop i).take pat.length = pat) with
  | some i => (i : Int)
  | none => -1

/-- Python `l[i:]` including the negative-index convention. -/
def pySliceFrom (l : List Nat) (i : Int) : List Nat :=
  if 0 ≤ i then l.drop i.toNat else l.drop ((l.length : Int) + i).toNat

/-- Python `int()` truncation (toward zero) of a rational. -/
def pyTrunc (q : ℚ) : Int := Int.tdiv q.num (q.den : Int)

/-- The bytes `b'Time '`. -/
def timePat : List Nat := [84, 105, 109, 101, 32]

/-- State threaded through `read_pcd`'s header loop: the last parsed
metadata, the dtype built at the `DATA` line, and the
`(topic_value, minute)` pair bound at the `Time` sentinel. -/
structure LoopState where
  md : Option PMeta := none
  dt : Option Dtype := none
  timeTopic : Option (String × Int) := none

/-- The header loop of the in-memory branch: every line is appended to
`header`; at a `DATA` line the header so far is parsed and the dtype
built; at a `Time ` line the (now larger) header is re-parsed,
`topic_value`/`minute` are bound, and the loop breaks. -/
def headerLoop (acc : List String) (st : LoopState) : List String → Except PyErr LoopState
  | [] => .ok st
  | ln :: rest =>
    let acc' := acc ++ [ln]
    if ln.startsWith "DATA" then
      match parse_header acc' with
      | .error e => .error e
      | .ok pm =>
        match build_dtype pm with
        | .error e => .error e
        | .ok d => headerLoop acc' { st with md := some pm, dt := some d } rest
    else if ln.startsWith "Time " then
      match parse_header acc' with
      | .error e => .error e
      | .ok pm =>
        match pm.topic with
        | none => .error .keyError
        | some tv =>
          match pm.time with
          | none => .error .keyError
          | some tm =>
            match pyInt tm with
            | none => .error .valueError
            | some ti =>
              .ok { st with md := some pm,
                            timeTopic := some (tv, pyTrunc ((ti : ℚ) / 60000000)) }
    else headerLoop acc' st rest

/-- The cleaned-up `data` dictionary returned by `read_pcd`.  The
`points` JSON string of the source is carried structurally: the four
rounded coordinate/intensity vectors it serializes. -/
structure PcdData where
  topic : String
  time : String
  ptsX : List ℚ
  ptsY : List ℚ
  ptsZ : List ℚ
  ptsI : List ℚ
  objects : List BoundingBox
  deriving DecidableEq, Repr

/-- `df[name]` followed by the float conversion of its cells: `KeyError`
when the column is absent. -/
def getDfCol (df : DataFrame) (n : String) : Except PyErr (List ℚ) :=
  match df.find? (fun c => c.name = n) with
  | none => .error .keyError
  | some c => .ok (c.cells.map (fun p => cellToRat c.dtype p))

/-- The tail of `read_pcd`: the reduced vertex view.  `jsondict` takes
`df['x']`, `df['y']`, `df['z']`, `df['intensity']` in that order (a
missing column raises `KeyError`), and the JSON round-trip rounds every
value to 2 decimal digits. -/
def finalizePcd (df : DataFrame) (topicValue : String) (minute : Int)
    (objects : List BoundingBox) : Except PyErr PcdData :=
  match getDfCol df "x" with
  | .error e => .error e
  | .ok xs =>
  match getDfCol df "y" with
  | .error e => .error e
  | .ok ys =>
  match getDfCol df "z" with
  | .error e => .error e
  | .ok zs =>
  match getDfCol df "intensity" with
  | .error e => .error e
  | .ok is' =>
    .ok { topic := topicValue, time := toString minute,
          ptsX := xs.map pyRound2, ptsY := ys.map pyRound2,
          ptsZ := zs.map pyRound2, ptsI := is'.map pyRound2,
          objects := objects }

/-- `read_pcd(content)` from `parser.py`, in-memory branch.  Notable
modelled details, each mirroring the source line by line:
  * header loop as `headerLoop` (break at the `Time ` sentinel);
  * `skip` from `content.find(b'Time ')` and the next newline;
  * `rowstep = metadata['points'] * dtype.itemsize` is evaluated (it can
    raise `NameError`/`KeyError`) although the in-memory branch never
    uses it;
  * `ascii` body: the source calls
    `np.fromstring(content[skip:], dtype=dtype, delimiter=' ')`, but
    `np.fromstring(string, dtype=float, count=-1, sep='')` has no
    `delimiter` parameter, so the call raises `TypeError` before reading
    anything — every in-memory ascii frame fails here;
  * `binary` body: `np.fromstring(content[skip:], dtype=dtype)`;
  * `binary_compressed`: `raise NotImplementedError`;
  * any other `DATA` value leaves `pc_data` unbound: `NameError` at
    `pd.DataFrame(pc_data)`;
  * the rgb unpack, then `topic_value` (NameError when no `Time `
    sentinel line was seen), then the reduced vertex view. -/
def read_pcd (content : List Nat) : Except PyErr PcdData :=
  match headerLoop [] {} ((splitOnByte 10 content).map bytesToStr) with
  | .error e => .error e
  | .ok st =>
    let skip1 := pyFind content timePat
    let skip := skip1 + pyFind (pySliceFrom content skip1) [10] + 1
    let body := pySliceFrom content skip
    match st.md with
    | none => .error .nameError
    | some pm =>
      match pm.points with
      | none => .error .keyError
      | some pts =>
        match st.dt with
        | none => .error .nameError
        | some dt =>
          let _rowstep := pts.toNat * dtypeItemsize dt
          match pm.data with
          | none => .error .keyError
          | some enc =>
            match (if enc = "ascii" then Except.error PyErr.typeError
              else if enc = "binary" then fromstringBin dt body
              else if enc = "binary_compressed" then Except.error PyErr.notImplementedError
              else Except.error PyErr.nameError) with
            | .error e => .error e
            | .ok rows =>
              match unpackRGB (toDataFrame dt rows) with
              | .error e => .error e
              | .ok df =>
                match st.timeTopic with
                | none => .error .nameError
                | some tt => finalizePcd df tt.1 tt.2 pm.objects

/-! ### The ingestion bridge and stream stats (`app.py`) -/

/-- A raw frame as received by `handle_mqtt_message`. -/
structure RawFrame where
  topic : String
  payload : List Nat
  deriving DecidableEq, Repr

/-- The enqueue step of `handle_mqtt_message`: append only while the
queue holds fewer than 100 entries, else silently drop the arrival. -/
def enqueue (q : List RawFrame) (d : RawFrame) : List RawFrame :=
  if q.length < 100 then q ++ [d] else q

/-- A Python-`dict`-like association list (insertion order, unique keys
maintained by `dictSet`). -/
def dictLookup {α : Type} : List (String × α) → String → Option α
  | [], _ => none
  | e :: t, k => if e.1 = k then some e.2 else dictLookup t k

/-- `d[k] = v`: overwrite the existing entry or append a new one. -/
def dictSet {α : Type} : List (String × α) → String → α → List (String × α)
  | [], k, v => [(k, v)]
  | e :: t, k, v => if e.1 = k then (k, v) :: t else e :: dictSet t k v

/-- The module-level stream-stats state of `app.py`: `countDict`,
`fpsDict`, `mqttFirstFrame` and `startTime` (an instant, as a rational
number of seconds on an arbitrary origin). -/
structure FpsState where
  countDict : List (String × Int)
  fpsDict : List (String × ℚ)
  mqttFirstFrame : Bool
  startTime : ℚ
  deriving DecidableEq, Repr

/-- `count_fps_datamesh(timeValue, topicValue)` observed at instant
`now`:  increment the topic's counter only when the topic is already a
`countDict` key; start the shared timer on the very first frame, else
measure `duration`; once `timeValue <= duration`, store
`countDict[topicValue] / duration` (KeyError when the topic was never
registered, ZeroDivisionError when `duration` is zero). -/
def count_fps_datamesh (timeValue : ℚ) (topicValue : String) (now : ℚ)
    (st : FpsState) : Except PyErr FpsState :=
  let st1 :=
    match dictLookup st.countDict topicValue with
    | some c => { st with countDict := dictSet st.countDict topicValue (c + 1) }
    | none => st
  let st2 := if ¬ st1.mqttFirstFrame then { st1 with mqttFirstFrame := true, startTime := now } else st1
  let duration : ℚ := if ¬ st1.mqttFirstFrame then 0 else now - st1.startTime
  if timeValue ≤ duration then
    match dictLookup st2.countDict topicValue with
    | none => .error .keyError
    | some c =>
      if duration = 0 then .error .zeroDivisionError
      else .ok { st2 with fpsDict := dictSet st2.fpsDict topicValue ((c : ℚ) / duration) }
  else .ok st2

/-- `handle_mqtt_message`: build the `{topic, payload}` dict, update the
stream stats (before and regardless of the queue check), then append to
`threadedData` only under the capacity bound. -/
def handle_mqtt_message (topic : String) (payload : List Nat) (now : ℚ)
    (fs : FpsState) (q : List RawFrame) : Except PyErr (FpsState × List RawFrame) :=
  match count_fps_datamesh 10 topic now fs with
  | .error e => .error e
  | .ok fs' => .ok (fs', enqueue q ⟨topic, payload⟩)

/-- The outbound envelope `process_message` emits for one frame: the
compressed `points` payload is carried structurally (zstd compression is
an out-of-scope injective byte transform). -/
structure Envelope where
  topic : String
  payloadX : List ℚ
  payloadY : List ℚ
  payloadZ : List ℚ
  payloadI : List ℚ
  objects : List BoundingBox
  time : String
  deriving DecidableEq, Repr

/-- The envelope built from a decoded frame. -/
def mkEnvelope (f : RawFrame) (v : PcdData) : Envelope :=
  ⟨f.topic, v.ptsX, v.ptsY, v.ptsZ, v.ptsI, v.objects, v.time⟩

/-- The drain loop of `process_message`, run over a queue with no further
arrivals.  The loop body has no exception handler around
`read_pcd`/compress/emit, so the first failing frame's exception escapes
`process_message` and kills the (daemon) worker thread: the function
returns the envelopes emitted before the failure and the escaped
exception; frames after the failure are never dequeued. -/
def drainAll : List RawFrame → List Envelope × Option PyErr
  | [] => ([], none)
  | d :: rest =>
    match read_pcd d.payload with
    | .error e => ([], some e)
    | .ok v =>
      let r := drainAll rest
      (mkEnvelope d v :: r.1, r.2)

/-! ### Concrete frames and layouts used by the witnesses -/

/-- ASCII bytes of a text. -/
def strBytes (s : String) : List Nat := s.data.map Char.toNat

/-- A well-formed binary frame: the standard four-float32 layout, one
point `(1.0, 2.0, 3.0, 50.0)`, topic `t1`, timestamp 60000000 (minute 1). -/
def goodFrameBytes : List Nat :=
  strBytes "FIELDS x y z intensity\nSIZE 4 4 4 4\nTYPE F F F F\nPOINTS 1\nTOPIC t1\nDATA binary\nTime 60000000\n" ++
  [0, 0, 128, 63, 0, 0, 0, 64, 0, 0, 64, 64, 0, 0, 72, 66]

/-- The same frame with `DATA ascii` and the body as a text row. -/
def asciiFrameBytes : List Nat :=
  strBytes "FIELDS x y z intensity\nSIZE 4 4 4 4\nTYPE F F F F\nPOINTS 1\nTOPIC t1\nDATA ascii\nTime 60000000\n1.00 2.00 3.00 50.00"

/-- A frame whose decode fails (empty payload: the header loop never
binds `metadata`, so `read_pcd` hits `NameError`). -/
def badFrame : RawFrame := ⟨"bad", []⟩

/-- The decodable frame, wrapped for the queue. -/
def goodFrame : RawFrame := ⟨"t1", goodFrameBytes⟩

/-- The `[x:f32, y:f32, z:f32]` layout of the binary-decode claim. -/
def dtXYZ : Dtype := [("x", .float32), ("y", .float32), ("z", .float32)]

/-- 24 bytes: rows `(1.0, 2.0, 3.0)` and `(4.0, 5.0, 6.0)` as little-endian
float32. -/
def buf24 : List Nat :=
  [0, 0, 128, 63, 0, 0, 0, 64, 0, 0, 64, 64, 0, 0, 128, 64, 0, 0, 160, 64, 0, 0, 192, 64]

/-- The 24-byte buffer truncated to 23 bytes. -/
def buf23 : List Nat := buf24.take 23

/-- The 24-byte buffer truncated to 12 bytes (one full row). -/
def buf12 : List Nat := buf24.take 12

/-- A pre-registered stats state used by the C4 witness. -/
def fsC : FpsState := ⟨[("t", 5)], [], true, 0⟩

/-- A decoded table missing its `intensity` column. -/
def dfNoIntensity : DataFrame :=
  [⟨"x", .float32, []⟩, ⟨"y", .float32, []⟩, ⟨"z", .float32, []⟩]

/-- The unpack's result characterized by plain bit-field extraction on
the unsigned patterns (spec-side form, compared with `unpackRGB`): the
non-`rgb` columns in order, then `red`, `green`, `blue`. -/
def rgbUnpacked (df : DataFrame) (col : Column) : DataFrame :=
  (df.filter (fun c => ¬ c.name = "rgb")) ++
  [⟨"red", .uint8, col.cells.map (fun p => p / 2 ^ 16 % 256)⟩,
   ⟨"green", .uint8, col.cells.map (fun p => p / 2 ^ 8 % 256)⟩,
   ⟨"blue", .uint8, col.cells.map (fun p => p % 256)⟩]

/-- A decoded table with an `x` column and an `rgb` column whose single
bit pattern packs red=10, green=20, blue=30 (`0x000A141E = 660510`). -/
def dfRGB : DataFrame :=
  [⟨"x", .float32, [1065353216]⟩, ⟨"rgb", .float32, [660510]⟩]

/-- The C8 witness block: standard prelude, `minx` start line, one bbox
line, an `end end` terminator, a `DATA` line after the block. -/
def preC8 : List String := ["FIELDS x y z intensity", "SIZE 4 4 4 4", "TYPE F F F F"]

/-- The metadata state after the C8 witness prelude. -/
def st0C8 : PMeta :=
  { fields := some ["x", "y", "z", "intensity"], typeL := some ["F", "F", "F", "F"],
    size := some [4, 4, 4, 4] }

/-- The single box of the C8 witness block. -/
def boxC8 : BoundingBox := ⟨3 / 2, 5 / 2, 1 / 2, 7 / 2, 1 / 4, 9 / 2, "Object"⟩

/-- The metadata the C8 witness header parses to. -/
def outC8 : PMeta :=
  { version := some ".7", fields := some ["x", "y", "z", "intensity"],
    typeL := some ["F", "F", "F", "F"], size := some [4, 4, 4, 4],
    count := some [1, 1, 1, 1], viewpoint := some [0, 0, 0, 1, 0, 0, 0],
    data := some "ascii", objects := [boxC8],
    warnings := ["1.5 2.5 0.5 3.5 0.25 4.5"] }

/-- The header lines of the C9 witness: no `COUNT`, `VIEWPOINT` or
`VERSION` key. -/
def lines9 : List String := ["FIELDS x y", "SIZE 4 4", "TYPE F F", "DATA binary"]

/-- The metadata the C9 witness header parses to. -/
def out9 : PMeta :=
  { version := some ".7", fields := some ["x", "y"], typeL := some ["F", "F"],
    size := some [4, 4], count := some [1, 1], viewpoint := some [0, 0, 0, 1, 0, 0, 0],
    data := some "binary" }


/-! ### Claim C5 — queue backpressure -/

/-- Once the queue is at (or beyond) capacity, further enqueues leave it
unchanged. -/
theorem foldl_enqueue_of_full (l : List RawFrame) (q : List RawFrame)
    (h : 100 ≤ q.length) : List.foldl enqueue q l = q := by
  induction l with
  | nil => rfl
  | cons a t ih =>
    have hq : ¬ q.length < 100 := by omega
    simp only [List.foldl_cons, enqueue, if_neg hq]
    exact ih

/-- Below capacity, a run of enqueues appends exactly the remaining free
slots' worth of arrivals, in order. -/
theorem foldl_enqueue_take (l : List RawFrame) : ∀ q : List RawFrame,
    q.length ≤ 100 → List.foldl enqueue q l = q ++ l.take (100 - q.length) := by
  induction l with
  | nil => intro q _; simp
  | cons a t ih =>
    intro q hq
    by_cases h : q.length < 100
    · have hlen : (q ++ [a]).length ≤ 100 := by simp; omega
      have hstep : 100 - q.length = (100 - (q ++ [a]).length) + 1 := by simp; omega
      simp only [List.foldl_cons, enqueue, if_pos h]
      rw [ih (q ++ [a]) hlen, hstep, List.take_succ_cons, List.append_assoc,
        List.singleton_append]
    · have h100 : q.length = 100 := by omega
      simp only [List.foldl_cons, enqueue, if_neg h]
      rw [foldl_enqueue_of_full t q (by omega), h100]
      simp

/-- C5: with no draining, enqueueing any sequence of arrivals into the
(initially empty) capacity-100 queue keeps exactly the first 100
arrivals, in FIFO order — later arrivals are dropped, no queued entry is
replaced — and the queue length never exceeds 100. -/
theorem C5_queue_backpressure (arrivals : List RawFrame) :
    List.foldl enqueue [] arrivals = arrivals.take 100 ∧
    (List.foldl enqueue [] arrivals).length ≤ 100 := by
  have h := foldl_enqueue_take arrivals [] (by simp)
  constructor
  · simpa using h
  · rw [h]; simp [List.length_take]

/-! ### Claim C2 — binary decode -/

/-- C2 counterexample: a 12-byte body — fewer bytes than
`points * rowWidth = 24` for `points = 2` — does not fail: the binary
decode (`np.fromstring(content[skip:], dtype=dtype)`, which never
consults `POINTS`) silently yields the single encoded row `(1,2,3)`. -/
theorem C2_counterexample :
    buf12.length < 2 * dtypeItemsize dtXYZ ∧
    fromstringBin dtXYZ buf12 = Except.ok [[1065353216, 1073741824, 1077936128]] ∧
    (f32ToRat 1065353216, f32ToRat 1073741824, f32ToRat 1077936128) =
      ((1 : ℚ), (2 : ℚ), (3 : ℚ)) := by
  refine ⟨by decide, by with_unfolding_all rfl, ?_⟩
  with_unfolding_all rfl

/-- C2 (amended): decoding the 24-byte body yields exactly the two rows
`(1,2,3)` and `(4,5,6)`; the 23-byte body fails fatally (`ValueError`);
in general decode of the 12-byte-row layout fails exactly when the body
size is not a multiple of the row width — a short body that is a whole
number of rows silently yields that many rows — and a successful decode
returns `length / 12` rows, reading nothing beyond the supplied buffer. -/
theorem C2_amended_binary_decode :
    (fromstringBin dtXYZ buf24 =
      Except.ok [[1065353216, 1073741824, 1077936128], [1082130432, 1084227584, 1086324736]]) ∧
    ([[1065353216, 1073741824, 1077936128], [1082130432, 1084227584, 1086324736]].map
        (fun r => r.map f32ToRat) = [[1, 2, 3], [4, 5, 6]]) ∧
    fromstringBin dtXYZ buf23 = Except.error PyErr.valueError ∧
    ∀ buf : List Nat,
      (buf.length % 12 ≠ 0 → fromstringBin dtXYZ buf = Except.error PyErr.valueError) ∧
      (buf.length % 12 = 0 → ∃ rows, fromstringBin dtXYZ buf = Except.ok rows ∧
        rows.length = buf.length / 12) := by
  refine ⟨by with_unfolding_all rfl, by with_unfolding_all rfl, by with_unfolding_all rfl,
    fun buf => ⟨fun h => ?_, fun h => ?_⟩⟩
  · have hisz : dtypeItemsize dtXYZ = 12 := by decide
    simp only [fromstringBin, hisz]
    simp [h]
  · have hisz : dtypeItemsize dtXYZ = 12 := by decide
    refine ⟨(List.range (buf.length / 12)).map
      (fun r => rowFromBytes dtXYZ ((buf.drop (r * 12)).take 12)), ?_, by simp⟩
    simp only [fromstringBin, hisz]
    simp [h]

/-- C2 amended, witnessed at the concrete buffers: the 23-byte buffer is
not a whole number of rows and decoding it fails. -/
theorem C2_amended_binary_decode_witness :
    buf23.length % 12 ≠ 0 ∧ fromstringBin dtXYZ buf23 = Except.error PyErr.valueError :=
  ⟨by decide, (C2_amended_binary_decode.2.2.2 buf23).1 (by decide)⟩

/-! ### Claim C3 — ascii decode -/

/-- C3 (the code bug evaluated): the claim's ascii frame — four-float32
layout, one row `1.00 2.00 3.00 50.00` — fails with `TypeError` instead
of decoding to the row: the in-memory branch calls `np.fromstring` with
a `delimiter=' '` keyword that `np.fromstring` does not accept.  (The
file branch of `read_pcd` parses ascii rows with
`np.loadtxt(f, dtype=dtype, delimiter=' ')`, which is the behavior the
claim describes.) -/
theorem C3_ascii_decode_typeerror :
    read_pcd asciiFrameBytes = Except.error PyErr.typeError := by
  with_unfolding_all rfl

/-! ### Claim C1 — drain-loop failure handling -/

/-- C1 counterexample: with a failing frame at the head of the queue and
a perfectly decodable frame behind it, the drain loop emits nothing at
all — `process_message` has no handler around `read_pcd`, so the first
decode failure escapes the loop (killing the worker thread) and the
later good frame is never processed, contrary to the claimed
partial-failure isolation. -/
theorem C1_counterexample :
    (read_pcd goodFrame.payload).isOk = true ∧
    drainAll [badFrame, goodFrame] = ([], some PyErr.nameError) := by
  constructor
  · with_unfolding_all rfl
  · with_unfolding_all rfl

/-- C1 (amended): a decode failure is not caught at the drain loop.  The
loop delivers the envelopes of the frames before the first failing one,
then the exception escapes and no later frame — however decodable — is
processed. -/
theorem C1_amended_drain_stops (gs : List RawFrame) (bad : RawFrame)
    (rest : List RawFrame) (e : PyErr)
    (hgs : ∀ g ∈ gs, (read_pcd g.payload).isOk = true)
    (hbad : read_pcd bad.payload = Except.error e) :
    drainAll (gs ++ bad :: rest) = ((drainAll gs).1, some e) := by
  induction gs with
  | nil => simp [drainAll, hbad]
  | cons g t ih =>
    have hg := hgs g (by simp)
    cases hv : read_pcd g.payload with
    | error e' => rw [hv] at hg; simp [Except.isOk, Except.toBool] at hg
    | ok v =>
      have ht : ∀ g ∈ t, (read_pcd g.payload).isOk = true := fun x hx => hgs x (by simp [hx])
      simp [drainAll, hv, ih ht]

/-- C1 amended, witnessed concretely: the good frame decodes, the bad
frame fails with `NameError`, and draining `[good, bad, good]` delivers
only the first envelope. -/
theorem C1_amended_drain_stops_witness :
    (∀ g ∈ [goodFrame], (read_pcd g.payload).isOk = true) ∧
    read_pcd badFrame.payload = Except.error PyErr.nameError ∧
    drainAll ([goodFrame] ++ badFrame :: [goodFrame]) =
      ((drainAll [goodFrame]).1, some PyErr.nameError) := by
  refine ⟨?_, ?_, ?_⟩
  · intro g hg
    simp only [List.mem_singleton] at hg
    subst hg
    with_unfolding_all rfl
  · with_unfolding_all rfl
  · exact C1_amended_drain_stops [goodFrame] badFrame [goodFrame] PyErr.nameError
      (by intro g hg; simp only [List.mem_singleton] at hg; subst hg; with_unfolding_all rfl)
      (by with_unfolding_all rfl)

/-! ### Claim C4 — stream stats -/

/-- Setting a key makes it readable (Python dict semantics). -/
theorem dictLookup_dictSet_self {α : Type} (d : List (String × α)) (k : String) (v : α) :
    dictLookup (dictSet d k v) k = some v := by
  induction d with
  | nil => simp [dictSet, dictLookup]
  | cons e t ih =>
    by_cases h : e.1 = k
    · simp [dictSet, dictLookup, h]
    · simp [dictSet, dictLookup, h, ih]

/-- C4 counterexample: an arrival on a topic that is not a `countDict`
key (any topic outside the startup topic list, e.g. one subscribed at
runtime) does not increment any counter — the resulting state still has
an empty `countDict`, against the claim's "for every arriving frame on
any topic". -/
theorem C4_counterexample :
    count_fps_datamesh 10 "t" 0 ⟨[], [], false, 0⟩ =
      Except.ok ⟨[], [], true, 0⟩ := by
  with_unfolding_all rfl

/-- C4 (amended): for an arriving frame on a topic already registered in
`countDict`, the counter is incremented on every arrival (whatever the
timer says, and regardless of whether the frame is then queued or
dropped — `handle_mqtt_message` updates the stats before and
independently of the queue-capacity check); and when the first-frame
timer is already running and the elapsed time since the shared start
reaches the supplied window (and is nonzero), `fps[topic]` becomes the
post-increment `count[topic]` divided by the elapsed seconds. -/
theorem C4_amended_fps (fs : FpsState) (topic : String) (now w : ℚ) (c : Int)
    (hc : dictLookup fs.countDict topic = some c)
    (hf : fs.mqttFirstFrame = true) :
    (∀ (w' : ℚ) (fs' : FpsState), count_fps_datamesh w' topic now fs = Except.ok fs' →
        dictLookup fs'.countDict topic = some (c + 1)) ∧
    (w ≤ now - fs.startTime → 0 < now - fs.startTime →
      count_fps_datamesh w topic now fs =
        Except.ok { fs with
          countDict := dictSet fs.countDict topic (c + 1),
          fpsDict := dictSet fs.fpsDict topic (((c + 1 : Int) : ℚ) / (now - fs.startTime)) }) ∧
    (∀ (payload : List Nat) (q : List RawFrame) (fs' : FpsState) (q' : List RawFrame),
        handle_mqtt_message topic payload now fs q = Except.ok (fs', q') →
        dictLookup fs'.countDict topic = some (c + 1) ∧ q' = enqueue q ⟨topic, payload⟩) := by
  have hset := dictLookup_dictSet_self fs.countDict topic (c + 1)
  have key : ∀ (w' : ℚ) (fs' : FpsState), count_fps_datamesh w' topic now fs = Except.ok fs' →
      dictLookup fs'.countDict topic = some (c + 1) := by
    intro w' fs' h
    simp only [count_fps_datamesh, hc, hf, not_true_eq_false, if_false] at h
    by_cases hd : w' ≤ now - fs.startTime
    · rw [if_pos hd] at h
      simp only [hset] at h
      by_cases hz : now - fs.startTime = 0
      · rw [if_pos hz] at h; cases h
      · rw [if_neg hz] at h
        cases h
        simpa using hset
    · rw [if_neg hd] at h
      cases h
      simpa using hset
  refine ⟨key, fun hw hpos => ?_, ?_⟩
  · simp only [count_fps_datamesh, hc, hf, not_true_eq_false, if_false, if_pos hw, hset,
      if_neg hpos.ne']
  · intro payload q fs' q' h
    simp only [handle_mqtt_message] at h
    cases hcf : count_fps_datamesh 10 topic now fs with
    | error e => rw [hcf] at h; cases h
    | ok fs'' =>
      rw [hcf] at h
      cases h
      exact ⟨key 10 _ hcf, rfl⟩

/-- C4 amended, witnessed: topic `t` starts with count 5 and an already
running timer started at 0; an arrival at `now = 10` with the 10-second
window reached increments the counter to 6 and records
`fps = 6 / 10 = 3/5`. -/
theorem C4_amended_fps_witness :
    dictLookup fsC.countDict "t" = some 5 ∧ fsC.mqttFirstFrame = true ∧
    (10 : ℚ) ≤ 10 - fsC.startTime ∧ (0 : ℚ) < 10 - fsC.startTime ∧
    count_fps_datamesh 10 "t" 10 fsC =
      Except.ok ⟨[("t", 6)], [("t", 3 / 5)], true, 0⟩ := by
  refine ⟨by with_unfolding_all rfl, rfl, by norm_num [fsC], by norm_num [fsC], ?_⟩
  have h := (C4_amended_fps fsC "t" 10 10 5 (by with_unfolding_all rfl) rfl).2.1
    (by norm_num [fsC]) (by norm_num [fsC])
  exact h.trans (by with_unfolding_all rfl)

/-! ### Claim C10 — the reduced vertex view -/

/-- C10: the serialized output of `read_pcd` is built from exactly the
four columns `x`, `y`, `z`, `intensity` of the decoded table (rounded to
2 decimal digits), and a decoded table lacking any of them makes the
final stage (`finalizePcd`, the tail of `read_pcd` after decoding and
colour unpack) raise `KeyError`: a frame can only decode successfully
with all four columns present. -/
theorem C10_reduced_view (df : DataFrame) (tv : String) (mi : Int)
    (obj : List BoundingBox) :
    (((df.find? (fun c => c.name = "x")).isNone ∨
      (df.find? (fun c => c.name = "y")).isNone ∨
      (df.find? (fun c => c.name = "z")).isNone ∨
      (df.find? (fun c => c.name = "intensity")).isNone) →
        finalizePcd df tv mi obj = Except.error PyErr.keyError) ∧
    (∀ out : PcdData, finalizePcd df tv mi obj = Except.ok out →
      ∃ cx cy cz ci : Column,
        df.find? (fun c => c.name = "x") = some cx ∧
        df.find? (fun c => c.name = "y") = some cy ∧
        df.find? (fun c => c.name = "z") = some cz ∧
        df.find? (fun c => c.name = "intensity") = some ci ∧
        out = { topic := tv, time := toString mi,
                ptsX := (cx.cells.map (cellToRat cx.dtype)).map pyRound2,
                ptsY := (cy.cells.map (cellToRat cy.dtype)).map pyRound2,
                ptsZ := (cz.cells.map (cellToRat cz.dtype)).map pyRound2,
                ptsI := (ci.cells.map (cellToRat ci.dtype)).map pyRound2,
                objects := obj }) := by
  rcases hx : df.find? (fun c => c.name = "x") with _ | cx
  · constructor
    · intro _; simp [finalizePcd, getDfCol, hx]
    · intro out hout; simp [finalizePcd, getDfCol, hx] at hout
  · rcases hy : df.find? (fun c => c.name = "y") with _ | cy
    · constructor
      · intro _; simp [finalizePcd, getDfCol, hx, hy]
      · intro out hout; simp [finalizePcd, getDfCol, hx, hy] at hout
    · rcases hz : df.find? (fun c => c.name = "z") with _ | cz
      · constructor
        · intro _; simp [finalizePcd, getDfCol, hx, hy, hz]
        · intro out hout; simp [finalizePcd, getDfCol, hx, hy, hz] at hout
      · rcases hi : df.find? (fun c => c.name = "intensity") with _ | ci
        · constructor
          · intro _; simp [finalizePcd, getDfCol, hx, hy, hz, hi]
          · intro out hout; simp [finalizePcd, getDfCol, hx, hy, hz, hi] at hout
        · constructor
          · intro hmiss; simp [hx, hy, hz, hi] at hmiss
          · intro out hout
            refine ⟨cx, cy, cz, ci, hx, hy, hz, hi, ?_⟩
            simp only [finalizePcd, getDfCol, hx, hy, hz, hi] at hout
            cases hout
            rfl

/-- C10 witnessed: a table with only `x`, `y`, `z` makes the final stage
raise `KeyError`. -/
theorem C10_reduced_view_witness :
    (dfNoIntensity.find? (fun c => c.name = "intensity")).isNone = true ∧
    finalizePcd dfNoIntensity "t" 0 [] = Except.error PyErr.keyError :=
  ⟨by with_unfolding_all rfl,
   (C10_reduced_view dfNoIntensity "t" 0 []).1
     (Or.inr (Or.inr (Or.inr (by with_unfolding_all rfl))))⟩

/-! ### Claim C6 — field-layout construction -/

/-- The signed int32 arithmetic of the unpack (`(v >> 16) & 0xFF` etc. on
the two's-complement reading of the bit pattern) coincides with plain
bit-field extraction on the unsigned pattern. -/
theorem twos_shift_mask (p : Nat) (_hp : p < 2 ^ 32) :
    (((twos 32 p).fdiv (2 ^ 16)).emod 256).toNat = p / 2 ^ 16 % 256 ∧
    (((twos 32 p).fdiv (2 ^ 8)).emod 256).toNat = p / 2 ^ 8 % 256 ∧
    ((twos 32 p).emod 256).toNat = p % 256 := by
  have hi16 : ((2 : Int) ^ 16) = 65536 := by norm_num
  have hi8 : ((2 : Int) ^ 8) = 256 := by norm_num
  have hn16 : ((2 : Nat) ^ 16) = 65536 := by norm_num
  have hn8 : ((2 : Nat) ^ 8) = 256 := by norm_num
  have hm : ∀ a b : Int, a.emod b = a % b := fun _ _ => rfl
  simp only [twos, hi16, hi8, hn16, hn8, hm]
  rw [Int.fdiv_eq_ediv _ (by norm_num), Int.fdiv_eq_ediv _ (by norm_num)]
  split_ifs with h
  · exact ⟨by omega, by omega, by omega⟩
  · exact ⟨by omega, by omega, by omega⟩

/-- C7: on a decoded table with a (float32) `rgb` column, the unpack
appends `red`, `green`, `blue` uint8 columns holding bits 16–23, 8–15
and 0–7 of each row's `rgb` bit pattern read as a signed 32-bit value,
and removes the `rgb` column; the result has no `rgb` column. -/
theorem C7_rgb_unpack (df : DataFrame) (col : Column)
    (hfind : df.find? (fun c => c.name = "rgb") = some col)
    (hdt : col.dtype = NumpyType.float32)
    (hcells : ∀ p ∈ col.cells, p < 2 ^ 32) :
    unpackRGB df = Except.ok (rgbUnpacked df col) ∧
    (rgbUnpacked df col).find? (fun c => c.name = "rgb") = none := by
  constructor
  · simp only [unpackRGB, hfind, hdt, rgbUnpacked]
    have hr : col.cells.map (fun p => (((twos 32 p).fdiv (2 ^ 16)).emod 256).toNat) =
        col.cells.map (fun p => p / 2 ^ 16 % 256) :=
      List.map_congr_left (fun p hp => (twos_shift_mask p (hcells p hp)).1)
    have hg : col.cells.map (fun p => (((twos 32 p).fdiv (2 ^ 8)).emod 256).toNat) =
        col.cells.map (fun p => p / 2 ^ 8 % 256) :=
      List.map_congr_left (fun p hp => (twos_shift_mask p (hcells p hp)).2.1)
    have hb : col.cells.map (fun p => ((twos 32 p).emod 256).toNat) =
        col.cells.map (fun p => p % 256) :=
      List.map_congr_left (fun p hp => (twos_shift_mask p (hcells p hp)).2.2)
    rw [hr, hg, hb]
    simp
  · rw [List.find?_eq_none]
    intro c hc
    simp only [rgbUnpacked, List.mem_append, List.mem_filter] at hc
    rcases hc with ⟨_, hcn⟩ | hcn
    · simpa using hcn
    · simp only [List.mem_cons, List.not_mem_nil, or_false] at hcn
      rcases hcn with rfl | rfl | rfl <;> simp

/-- C7 witnessed: the pattern for (10, 20, 30) unpacks to `red=10`,
`green=20`, `blue=30`, with `rgb` gone and `x` preserved. -/
theorem C7_rgb_unpack_witness :
    dfRGB.find? (fun c => c.name = "rgb") = some ⟨"rgb", .float32, [660510]⟩ ∧
    (∀ p ∈ [(660510 : Nat)], p < 2 ^ 32) ∧
    unpackRGB dfRGB = Except.ok
      [⟨"x", .float32, [1065353216]⟩, ⟨"red", .uint8, [10]⟩,
       ⟨"green", .uint8, [20]⟩, ⟨"blue", .uint8, [30]⟩] := by
  refine ⟨by with_unfolding_all rfl, by decide, ?_⟩
  have h := (C7_rgb_unpack dfRGB ⟨"rgb", .float32, [660510]⟩
    (by with_unfolding_all rfl) rfl (by intro p hp; simp at hp; omega)).1
  exact h.trans (by with_unfolding_all rfl)

/-! ### Header-loop lemmas shared by C8 and C9 -/

/-- Inversion of `Except.map` returning `ok`. -/
theorem exceptMap_ok {α β : Type} {f : α → β} {e : Except PyErr α} {b : β}
    (h : Except.map f e = Except.ok b) : ∃ a, e = Except.ok a ∧ f a = b := by
  cases e with
  | error er => simp [Except.map] at h
  | ok a =>
    refine ⟨a, rfl, ?_⟩
    simpa [Except.map] using h

/-- What one key/value dispatch can and cannot change: `objects` never;
`searchSwitch` only via `minx`/`end`; `count`, `viewpoint`, `version`
only via their own keys. -/
theorem dispatchKV_effects (st : PMeta) (k v : String) (st' : PMeta)
    (h : dispatchKV st k v = Except.ok st') :
    st'.objects = st.objects ∧
    st'.searchSwitch =
      (if k = "minx" then true else if k = "end" then false else st.searchSwitch) ∧
    (k ≠ "count" → st'.count = st.count) ∧
    (k ≠ "viewpoint" → st'.viewpoint = st.viewpoint) ∧
    (k ≠ "version" → st'.version = st.version) := by
  unfold dispatchKV at h
  by_cases h1 : k = "version"
  · rw [if_pos h1] at h; cases h; subst h1
    exact ⟨rfl, by simp, by simp, by simp, by simp⟩
  rw [if_neg h1] at h
  by_cases h2 : k = "fields"
  · rw [if_pos h2] at h; cases h; subst h2
    exact ⟨rfl, by simp, by simp, by simp, by simp⟩
  rw [if_neg h2] at h
  by_cases h3 : k = "type"
  · rw [if_pos h3] at h; cases h; subst h3
    exact ⟨rfl, by simp, by simp, by simp, by simp⟩
  rw [if_neg h3] at h
  by_cases h4 : k = "size"
  · rw [if_pos h4] at h; obtain ⟨a, _, rfl⟩ := exceptMap_ok h; subst h4
    exact ⟨rfl, by simp, by simp, by simp, by simp⟩
  rw [if_neg h4] at h
  by_cases h5 : k = "count"
  · rw [if_pos h5] at h; obtain ⟨a, _, rfl⟩ := exceptMap_ok h; subst h5
    exact ⟨rfl, by simp, by simp, by simp, by simp⟩
  rw [if_neg h5] at h
  by_cases h6 : k = "width"
  · rw [if_pos h6] at h; obtain ⟨a, _, rfl⟩ := exceptMap_ok h; subst h6
    exact ⟨rfl, by simp, by simp, by simp, by simp⟩
  rw [if_neg h6] at h
  by_cases h7 : k = "height"
  · rw [if_pos h7] at h; obtain ⟨a, _, rfl⟩ := exceptMap_ok h; subst h7
    exact ⟨rfl, by simp, by simp, by simp, by simp⟩
  rw [if_neg h7] at h
  by_cases h8 : k = "points"
  · rw [if_pos h8] at h; obtain ⟨a, _, rfl⟩ := exceptMap_ok h; subst h8
    exact ⟨rfl, by simp, by simp, by simp, by simp⟩
  rw [if_neg h8] at h
  by_cases h9 : k = "viewpoint"
  · rw [if_pos h9] at h; obtain ⟨a, _, rfl⟩ := exceptMap_ok h; subst h9
    exact ⟨rfl, by simp, by simp, by simp, by simp⟩
  rw [if_neg h9] at h
  by_cases h10 : k = "data"
  · rw [if_pos h10] at h; cases h; subst h10
    exact ⟨rfl, by simp, by simp, by simp, by simp⟩
  rw [if_neg h10] at h
  by_cases h11 : k = "minx"
  · rw [if_pos h11] at h; cases h; subst h11
    exact ⟨rfl, by simp, by simp, by simp, by simp⟩
  rw [if_neg h11] at h
  by_cases h12 : k = "topic"
  · rw [if_pos h12] at h; cases h; subst h12
    exact ⟨rfl, by simp, by simp, by simp, by simp⟩
  rw [if_neg h12] at h
  by_cases h13 : k = "time"
  · rw [if_pos h13] at h; cases h; subst h13
    exact ⟨rfl, by simp, by simp, by simp, by simp⟩
  rw [if_neg h13] at h
  by_cases h14 : k = "end"
  · rw [if_pos h14] at h; cases h; subst h14
    exact ⟨rfl, by simp, by simp, by simp, by simp⟩
  rw [if_neg h14] at h
  cases h
  exact ⟨rfl, by simp [h11, h14], by simp, by simp, by simp⟩

/-- The `minx` key only flips the capture switch on. -/
theorem dispatchKV_minx (st : PMeta) (v : String) :
    dispatchKV st "minx" v = Except.ok { st with searchSwitch := true } := by
  with_unfolding_all rfl

/-- The `end` key only flips the capture switch off. -/
theorem dispatchKV_end (st : PMeta) (v : String) :
    dispatchKV st "end" v = Except.ok { st with searchSwitch := false } := by
  with_unfolding_all rfl

/-- A key outside the dispatch table leaves the metadata unchanged. -/
theorem dispatchKV_unknown (st : PMeta) (k v : String)
    (hall : ∀ s ∈ activeKeys, k ≠ s) :
    dispatchKV st k v = Except.ok st := by
  have h1 := hall "version" (by simp [activeKeys])
  have h2 := hall "fields" (by simp [activeKeys])
  have h3 := hall "type" (by simp [activeKeys])
  have h4 := hall "size" (by simp [activeKeys])
  have h5 := hall "count" (by simp [activeKeys])
  have h6 := hall "width" (by simp [activeKeys])
  have h7 := hall "height" (by simp [activeKeys])
  have h8 := hall "points" (by simp [activeKeys])
  have h9 := hall "viewpoint" (by simp [activeKeys])
  have h10 := hall "data" (by simp [activeKeys])
  have h11 := hall "minx" (by simp [activeKeys])
  have h12 := hall "topic" (by simp [activeKeys])
  have h13 := hall "time" (by simp [activeKeys])
  have h14 := hall "end" (by simp [activeKeys])
  unfold dispatchKV
  simp [h1, h2, h3, h4, h5, h6, h7, h8, h9, h10, h11, h12, h13, h14]

/-- `floatAt` succeeds exactly when the token exists and parses. -/
theorem floatAt_ok_iff (toks : List String) (i : Nat) (q : ℚ) :
    floatAt toks i = Except.ok q ↔ (toks.get? i).bind pyFloat = some q := by
  unfold floatAt
  cases hg : toks.get? i with
  | none => simp
  | some t =>
    cases hp : pyFloat t with
    | none => simp [hp]
    | some q' => simp [hp]

/-- A successful capture step only appends one box to `objects`. -/
theorem captureStep_objects (st : PMeta) (ln : String) (st1 : PMeta)
    (h : captureStep st ln = Except.ok st1) :
    ∃ b, st1 = { st with objects := st.objects ++ [b] } := by
  simp only [captureStep] at h
  cases f0 : floatAt (pySplitSp ln) 0 with
  | error e => rw [f0] at h; cases h
  | ok a0 =>
  rw [f0] at h
  cases f1 : floatAt (pySplitSp ln) 1 with
  | error e => rw [f1] at h; cases h
  | ok a1 =>
  rw [f1] at h
  cases f2 : floatAt (pySplitSp ln) 2 with
  | error e => rw [f2] at h; cases h
  | ok a2 =>
  rw [f2] at h
  cases f3 : floatAt (pySplitSp ln) 3 with
  | error e => rw [f3] at h; cases h
  | ok a3 =>
  rw [f3] at h
  cases f4 : floatAt (pySplitSp ln) 4 with
  | error e => rw [f4] at h; cases h
  | ok a4 =>
  rw [f4] at h
  cases f5 : floatAt (pySplitSp ln) 5 with
  | error e => rw [f5] at h; cases h
  | ok a5 =>
  rw [f5] at h
  cases h
  exact ⟨_, rfl⟩

/-- A line whose six tokens parse as floats is captured as exactly the
box `bboxOf` describes. -/
theorem captureStep_of_bbox (st : PMeta) (ln : String) (b : BoundingBox)
    (h : bboxOf ln = some b) :
    captureStep st ln = Except.ok { st with objects := st.objects ++ [b] } := by
  simp only [bboxOf] at h
  cases h0 : ((pySplitSp ln).get? 0).bind pyFloat with
  | none => rw [h0] at h; simp at h
  | some a0 =>
  rw [h0] at h
  cases h1 : ((pySplitSp ln).get? 1).bind pyFloat with
  | none => rw [h1] at h; simp at h
  | some a1 =>
  rw [h1] at h
  cases h2 : ((pySplitSp ln).get? 2).bind pyFloat with
  | none => rw [h2] at h; simp at h
  | some a2 =>
  rw [h2] at h
  cases h3 : ((pySplitSp ln).get? 3).bind pyFloat with
  | none => rw [h3] at h; simp at h
  | some a3 =>
  rw [h3] at h
  cases h4 : ((pySplitSp ln).get? 4).bind pyFloat with
  | none => rw [h4] at h; simp at h
  | some a4 =>
  rw [h4] at h
  cases h5 : ((pySplitSp ln).get? 5).bind pyFloat with
  | none => rw [h5] at h; simp at h
  | some a5 =>
  rw [h5] at h
  simp only [Option.some.injEq] at h
  subst h
  simp only [captureStep, (floatAt_ok_iff _ _ _).mpr h0, (floatAt_ok_iff _ _ _).mpr h1,
    (floatAt_ok_iff _ _ _).mpr h2, (floatAt_ok_iff _ _ _).mpr h3,
    (floatAt_ok_iff _ _ _).mpr h4, (floatAt_ok_iff _ _ _).mpr h5]

/-- Every box `bboxOf` produces carries class `"Object"`. -/
theorem bboxOf_class (ln : String) (b : BoundingBox) (h : bboxOf ln = some b) :
    b.objClass = "Object" := by
  simp only [bboxOf] at h
  cases h0 : ((pySplitSp ln).get? 0).bind pyFloat with
  | none => rw [h0] at h; simp at h
  | some a0 =>
  rw [h0] at h
  cases h1 : ((pySplitSp ln).get? 1).bind pyFloat with
  | none => rw [h1] at h; simp at h
  | some a1 =>
  rw [h1] at h
  cases h2 : ((pySplitSp ln).get? 2).bind pyFloat with
  | none => rw [h2] at h; simp at h
  | some a2 =>
  rw [h2] at h
  cases h3 : ((pySplitSp ln).get? 3).bind pyFloat with
  | none => rw [h3] at h; simp at h
  | some a3 =>
  rw [h3] at h
  cases h4 : ((pySplitSp ln).get? 4).bind pyFloat with
  | none => rw [h4] at h; simp at h
  | some a4 =>
  rw [h4] at h
  cases h5 : ((pySplitSp ln).get? 5).bind pyFloat with
  | none => rw [h5] at h; simp at h
  | some a5 =>
  rw [h5] at h
  simp only [Option.some.injEq] at h
  subst h
  rfl

/-- Effects of one loop iteration: `count`/`viewpoint`/`version` change
only via their own keys, and with the capture switch off and no `minx`
key, `objects` and the switch are untouched. -/
theorem processLine_preserve (st : PMeta) (ln : String) (st' : PMeta)
    (h : processLine st ln = Except.ok st') :
    (keyOf ln ≠ some "count" → st'.count = st.count) ∧
    (keyOf ln ≠ some "viewpoint" → st'.viewpoint = st.viewpoint) ∧
    (keyOf ln ≠ some "version" → st'.version = st.version) ∧
    (st.searchSwitch = false → keyOf ln ≠ some "minx" →
      st'.objects = st.objects ∧ st'.searchSwitch = false) := by
  by_cases hcom : ln.startsWith "#" ∨ ln.length < 2
  · rw [processLine, if_pos hcom] at h
    cases h
    exact ⟨fun _ => rfl, fun _ => rfl, fun _ => rfl, fun hsw _ => ⟨rfl, hsw⟩⟩
  · rw [processLine, if_neg hcom] at h
    cases hcap : (if ¬ln.startsWith "end" ∧ st.searchSwitch then captureStep st ln
        else Except.ok st) with
    | error e => rw [hcap] at h; cases h
    | ok st1 =>
      rw [hcap] at h
      have hst1 : st1.count = st.count ∧ st1.viewpoint = st.viewpoint ∧
          st1.version = st.version ∧ (st.searchSwitch = false → st1 = st) ∧
          st1.objects = st.objects ∨
          (¬ln.startsWith "end" ∧ st.searchSwitch) ∧ st1.count = st.count ∧
          st1.viewpoint = st.viewpoint ∧ st1.version = st.version ∧
          st1.searchSwitch = st.searchSwitch := by
        by_cases hcc : ¬ln.startsWith "end" ∧ st.searchSwitch
        · rw [if_pos hcc] at hcap
          obtain ⟨b, rfl⟩ := captureStep_objects st ln st1 hcap
          exact Or.inr ⟨hcc, rfl, rfl, rfl, rfl⟩
        · rw [if_neg hcc] at hcap
          cases hcap
          exact Or.inl ⟨rfl, rfl, rfl, fun _ => rfl, rfl⟩
      have hc1 : st1.count = st.count := by rcases hst1 with ⟨h', _⟩ | ⟨_, h', _⟩ <;> exact h'
      have hv1 : st1.viewpoint = st.viewpoint := by
        rcases hst1 with ⟨_, h', _⟩ | ⟨_, _, h', _⟩ <;> exact h'
      have hr1 : st1.version = st.version := by
        rcases hst1 with ⟨_, _, h', _⟩ | ⟨_, _, _, h', _⟩ <;> exact h'
      have hswobj : st.searchSwitch = false → st1 = st := by
        intro hsw
        rcases hst1 with ⟨_, _, _, h', _⟩ | ⟨⟨_, hcc2⟩, _⟩
        · exact h' hsw
        · rw [hsw] at hcc2; exact absurd hcc2 (by simp)
      cases hm : reMatchKV ln with
      | none =>
        rw [hm] at h
        cases h
        refine ⟨fun _ => hc1, fun _ => hv1, fun _ => hr1, fun hsw _ => ?_⟩
        rw [hswobj hsw]
        exact ⟨rfl, hsw⟩
      | some kv =>
        rw [hm] at h
        have hd := dispatchKV_effects st1 kv.1.toLower kv.2 st' h
        have hk : keyOf ln = some kv.1.toLower := by rw [keyOf, hm]; rfl
        refine ⟨fun hne => ?_, fun hne => ?_, fun hne => ?_, fun hsw hminx => ?_⟩
        · rw [hd.2.2.1 (fun hh => hne (hk.trans (by rw [hh]))), hc1]
        · rw [hd.2.2.2.1 (fun hh => hne (hk.trans (by rw [hh]))), hv1]
        · rw [hd.2.2.2.2 (fun hh => hne (hk.trans (by rw [hh]))), hr1]
        · have hnm : kv.1.toLower ≠ "minx" := fun hh => hminx (hk.trans (by rw [hh]))
          have hst1st := hswobj hsw
          constructor
          · rw [hd.1, hst1st]
          · rw [hd.2.1, if_neg hnm]
            by_cases hend : kv.1.toLower = "end"
            · rw [if_pos hend]
            · rw [if_neg hend, hst1st, hsw]

/-- Capture-mode iteration: the line is consumed as its box (the
key/value match the source still runs on it has no effect beyond a
possible warning). -/
theorem processLine_capture (st : PMeta) (ln : String) (b : BoundingBox)
    (hsw : st.searchSwitch = true) (hbb : bboxOf ln = some b) (hok : bbLineOK ln) :
    ∃ st', processLine st ln = Except.ok st' ∧
      st'.objects = st.objects ++ [b] ∧ st'.searchSwitch = true := by
  obtain ⟨hskip, hend, hkeys⟩ := hok
  cases hm : reMatchKV ln with
  | none =>
    have heq : processLine st ln =
        Except.ok { st with
          objects := st.objects ++ [b]
          warnings := st.warnings ++ [ln] } := by
      rw [processLine, if_neg hskip,
        if_pos (show ¬ln.startsWith "end" ∧ st.searchSwitch from
          ⟨hend, by simp [hsw]⟩),
        captureStep_of_bbox st ln b hbb, hm]
    exact ⟨_, heq, rfl, hsw⟩
  | some kv =>
    have hk : keyOf ln = some kv.1.toLower := by rw [keyOf, hm]; rfl
    have hkne : ∀ s ∈ activeKeys, kv.1.toLower ≠ s :=
      fun s hs hh => hkeys s hs (hk.trans (by rw [hh]))
    have heq : processLine st ln = Except.ok { st with objects := st.objects ++ [b] } := by
      rw [processLine, if_neg hskip,
        if_pos (show ¬ln.startsWith "end" ∧ st.searchSwitch from
          ⟨hend, by simp [hsw]⟩),
        captureStep_of_bbox st ln b hbb, hm]
      exact dispatchKV_unknown _ _ _ hkne
    exact ⟨_, heq, rfl, hsw⟩

/-- A `minx`-keyed line outside capture mode only turns capture on. -/
theorem processLine_minx (st : PMeta) (ln : String)
    (hsw : st.searchSwitch = false) (hskip : ¬(ln.startsWith "#" ∨ ln.length < 2))
    (hk : keyOf ln = some "minx") :
    processLine st ln = Except.ok { st with searchSwitch := true } := by
  cases hm : reMatchKV ln with
  | none => rw [keyOf, hm] at hk; simp at hk
  | some kv =>
    have hkl : kv.1.toLower = "minx" := by rw [keyOf, hm] at hk; simpa using hk
    rw [processLine, if_neg hskip,
      if_neg (show ¬(¬ln.startsWith "end" ∧ st.searchSwitch) from
        fun hc => by rw [hsw] at hc; exact absurd hc.2 (by simp)), hm]
    have hd := dispatchKV_minx st kv.2
    rw [← hkl] at hd
    exact hd

/-- An `end`-prefixed, `end`-keyed line only turns capture off. -/
theorem processLine_end (st : PMeta) (ln : String)
    (hstart : ln.startsWith "end" = true)
    (hskip : ¬(ln.startsWith "#" ∨ ln.length < 2))
    (hk : keyOf ln = some "end") :
    processLine st ln = Except.ok { st with searchSwitch := false } := by
  cases hm : reMatchKV ln with
  | none => rw [keyOf, hm] at hk; simp at hk
  | some kv =>
    have hkl : kv.1.toLower = "end" := by rw [keyOf, hm] at hk; simpa using hk
    rw [processLine, if_neg hskip,
      if_neg (show ¬(¬ln.startsWith "end" ∧ st.searchSwitch) from
        fun hc => hc.1 (by simp [hstart])), hm]
    have hd := dispatchKV_end st kv.2
    rw [← hkl] at hd
    exact hd

/-- Splitting the loop over an append. -/
theorem parseLoop_append (a b : List String) : ∀ st : PMeta,
    parseLoop st (a ++ b) =
      match parseLoop st a with
      | .error e => .error e
      | .ok st1 => parseLoop st1 b := by
  induction a with
  | nil => intro st; rfl
  | cons ln rest ih =>
    intro st
    show parseLoop st (ln :: (rest ++ b)) = _
    simp only [parseLoop]
    cases hpl : processLine st ln with
    | error e => rfl
    | ok st1 => exact ih st1

/-- Loop-level preservation for C9: a key never appearing among the
lines leaves its metadata field as it started. -/
theorem parseLoop_preserve (lines : List String) : ∀ st st' : PMeta,
    parseLoop st lines = Except.ok st' →
    ((∀ ln ∈ lines, keyOf ln ≠ some "count") → st'.count = st.count) ∧
    ((∀ ln ∈ lines, keyOf ln ≠ some "viewpoint") → st'.viewpoint = st.viewpoint) ∧
    ((∀ ln ∈ lines, keyOf ln ≠ some "version") → st'.version = st.version) := by
  induction lines with
  | nil =>
    intro st st' h
    cases h
    exact ⟨fun _ => rfl, fun _ => rfl, fun _ => rfl⟩
  | cons ln rest ih =>
    intro st st' h
    simp only [parseLoop] at h
    cases hpl : processLine st ln with
    | error e => rw [hpl] at h; cases h
    | ok st1 =>
      rw [hpl] at h
      have hp := processLine_preserve st ln st1 hpl
      have hr := ih st1 st' h
      refine ⟨fun hall => ?_, fun hall => ?_, fun hall => ?_⟩
      · rw [hr.1 (fun l hl => hall l (by simp [hl])), hp.1 (hall ln (by simp))]
      · rw [hr.2.1 (fun l hl => hall l (by simp [hl])), hp.2.1 (hall ln (by simp))]
      · rw [hr.2.2 (fun l hl => hall l (by simp [hl])), hp.2.2.1 (hall ln (by simp))]

/-- Loop-level no-capture invariant for C8: with the switch off and no
`minx` key in sight, no objects appear. -/
theorem parseLoop_no_minx (lines : List String) : ∀ st st' : PMeta,
    st.searchSwitch = false → (∀ ln ∈ lines, keyOf ln ≠ some "minx") →
    parseLoop st lines = Except.ok st' →
    st'.objects = st.objects ∧ st'.searchSwitch = false := by
  induction lines with
  | nil =>
    intro st st' hsw _ h
    cases h
    exact ⟨rfl, hsw⟩
  | cons ln rest ih =>
    intro st st' hsw hall h
    simp only [parseLoop] at h
    cases hpl : processLine st ln with
    | error e => rw [hpl] at h; cases h
    | ok st1 =>
      rw [hpl] at h
      have hp := (processLine_preserve st ln st1 hpl).2.2.2 hsw (hall ln (by simp))
      have hr := ih st1 st' hp.2 (fun l hl => hall l (by simp [hl])) h
      exact ⟨hr.1.trans hp.1, hr.2⟩

/-- Loop-level capture run for C8: a block of parseable bbox lines in
capture mode appends exactly its boxes, in order. -/
theorem parseLoop_capture (bbLines : List String) (boxes : List BoundingBox)
    (hfa : List.Forall₂ (fun ln b => bboxOf ln = some b) bbLines boxes) :
    ∀ st : PMeta, st.searchSwitch = true → (∀ ln ∈ bbLines, bbLineOK ln) →
    ∃ st', parseLoop st bbLines = Except.ok st' ∧
      st'.objects = st.objects ++ boxes ∧ st'.searchSwitch = true := by
  induction hfa with
  | nil =>
    intro st hsw _
    exact ⟨st, rfl, by simp, hsw⟩
  | @cons ln b bbl bxs hb _ ih =>
    intro st hsw hok
    obtain ⟨st1, hpl, hobj1, hsw1⟩ :=
      processLine_capture st ln b hsw hb (hok ln (by simp))
    obtain ⟨st2, hloop, hobj2, hsw2⟩ := ih st1 hsw1 (fun l hl => hok l (by simp [hl]))
    refine ⟨st2, ?_, ?_, hsw2⟩
    · simp only [parseLoop, hpl, hloop]
    · rw [hobj2, hobj1, List.append_assoc]
      rfl

/-- What the post-loop defaults of `parse_header` do and keep. -/
theorem applyDefaults_spec (pm out : PMeta) (h : applyDefaults pm = Except.ok out) :
    out.objects = pm.objects ∧ out.fields = pm.fields ∧
    (pm.count = none → ∃ fl, pm.fields = some fl ∧
      out.count = some (List.replicate fl.length 1)) ∧
    (∀ c, pm.count = some c → out.count = some c) ∧
    (pm.viewpoint = none → out.viewpoint = some [0, 0, 0, 1, 0, 0, 0]) ∧
    (∀ vp, pm.viewpoint = some vp → out.viewpoint = some vp) ∧
    (pm.version = none → out.version = some ".7") ∧
    (∀ vs, pm.version = some vs → out.version = some vs) := by
  unfold applyDefaults at h
  by_cases hc : pm.count = none
  · rw [if_pos hc] at h
    cases hf : pm.fields with
    | none => rw [hf] at h; cases h
    | some fl =>
      rw [hf] at h
      cases h
      by_cases hv : pm.viewpoint = none
      · by_cases hr : pm.version = none
        · simp_all
        · simp_all
      · by_cases hr : pm.version = none
        · simp_all
        · simp_all
  · rw [if_neg hc] at h
    cases h
    by_cases hv : pm.viewpoint = none
    · by_cases hr : pm.version = none
      · simp_all
      · simp_all
    · by_cases hr : pm.version = none
      · simp_all
      · simp_all

/-- All boxes of a parsed block carry class `"Object"`. -/
theorem forall2_class (bbLines : List String) (boxes : List BoundingBox)
    (hfa : List.Forall₂ (fun ln b => bboxOf ln = some b) bbLines boxes) :
    ∀ b ∈ boxes, b.objClass = "Object" := by
  induction hfa with
  | nil => intro b hb; simp at hb
  | cons hb _ ih =>
    intro b hbm
    rcases List.mem_cons.mp hbm with rfl | hmem
    · exact bboxOf_class _ _ hb
    · exact ih b hmem

/-! ### Claim C8 — bounding-box block parsing -/

/-- C8 counterexample: a header whose bbox block is terminated by a bare
`end` line.  The `end` line matches no key/value (the regex needs a
value), so the capture switch stays on and the following `DATA ascii`
line is consumed as a bbox line — `float('DATA')` raises `ValueError`
and parsing fails instead of yielding the block's one box. -/
theorem C8_counterexample :
    parse_header ["FIELDS x", "minx 1", "1.5 2.5 0.5 3.5 0.25 4.5", "end", "DATA ascii"] =
      Except.error PyErr.valueError := by
  with_unfolding_all rfl

/-- C8 (amended): a bbox block whose terminator line both starts with
`end` and key/value-matches with key `end` (e.g. `end end`) yields, on a
successful parse, exactly the block's boxes in order, each with class
`"Object"` — the key/value match is still run on every captured line,
but for a line whose tokens are floats it can only add a warning, never
touch the metadata; and a header with no `minx` key anywhere parses with
an empty `objects` sequence. -/
theorem C8_amended_bbox_parse :
    (∀ (pre : List String) (sLn : String) (bbLines : List String) (eLn : String)
        (post : List String) (boxes : List BoundingBox) (st0 out : PMeta),
      parseLoop {} pre = Except.ok st0 → st0.searchSwitch = false → st0.objects = [] →
      ¬(sLn.startsWith "#" ∨ sLn.length < 2) → keyOf sLn = some "minx" →
      List.Forall₂ (fun ln b => bboxOf ln = some b) bbLines boxes →
      (∀ ln ∈ bbLines, bbLineOK ln) →
      eLn.startsWith "end" = true → ¬(eLn.startsWith "#" ∨ eLn.length < 2) →
      keyOf eLn = some "end" →
      (∀ ln ∈ post, keyOf ln ≠ some "minx") →
      parse_header (pre ++ sLn :: (bbLines ++ eLn :: post)) = Except.ok out →
      out.objects = boxes ∧ ∀ b ∈ boxes, b.objClass = "Object") ∧
    (∀ (lines : List String) (out : PMeta),
      (∀ ln ∈ lines, keyOf ln ≠ some "minx") →
      parse_header lines = Except.ok out → out.objects = []) := by
  constructor
  · intro pre sLn bbLines eLn post boxes st0 out hpre hsw0 hobj0 hskipS hkS hfa hbb
      hendE hskipE hkE hpost hsucc
    unfold parse_header at hsucc
    cases hpl : parseLoop {} (pre ++ sLn :: (bbLines ++ eLn :: post)) with
    | error e => rw [hpl] at hsucc; cases hsucc
    | ok pm =>
      rw [hpl] at hsucc
      rw [parseLoop_append, hpre] at hpl
      have hplS : parseLoop st0 (sLn :: (bbLines ++ eLn :: post)) = Except.ok pm := hpl
      have hplB : parseLoop { st0 with searchSwitch := true } (bbLines ++ eLn :: post) =
          Except.ok pm := by
        simp only [parseLoop, processLine_minx st0 sLn hsw0 hskipS hkS] at hplS
        exact hplS
      obtain ⟨st2, hcap, hobj2, hsw2⟩ := parseLoop_capture bbLines boxes hfa
        { st0 with searchSwitch := true } (by simp) hbb
      rw [parseLoop_append, hcap] at hplB
      have hplE : parseLoop st2 (eLn :: post) = Except.ok pm := hplB
      have hplP : parseLoop { st2 with searchSwitch := false } post = Except.ok pm := by
        simp only [parseLoop, processLine_end st2 eLn hendE hskipE hkE] at hplE
        exact hplE
      obtain ⟨hobjP, _⟩ := parseLoop_no_minx post _ pm (by simp) hpost hplP
      have hpmobj : pm.objects = boxes := by
        rw [hobjP]
        simp only []
        rw [hobj2]
        simp [hobj0]
      exact ⟨(applyDefaults_spec pm out hsucc).1.trans hpmobj,
        forall2_class bbLines boxes hfa⟩
  · intro lines out hall hsucc
    unfold parse_header at hsucc
    cases hpl : parseLoop {} lines with
    | error e => rw [hpl] at hsucc; cases hsucc
    | ok pm =>
      rw [hpl] at hsucc
      obtain ⟨hobj, _⟩ := parseLoop_no_minx lines {} pm rfl hall hpl
      rw [(applyDefaults_spec pm out hsucc).1, hobj]

/-- C8 amended, witnessed: the one-box block with an `end end` terminator
parses to exactly that box. -/
theorem C8_amended_bbox_parse_witness :
    parse_header (preC8 ++ "minx 1" :: (["1.5 2.5 0.5 3.5 0.25 4.5"] ++ "end end" ::
      ["DATA ascii"])) = Except.ok outC8 ∧
    outC8.objects = [boxC8] := by
  have hsucc : parse_header (preC8 ++ "minx 1" :: (["1.5 2.5 0.5 3.5 0.25 4.5"] ++
      "end end" :: ["DATA ascii"])) = Except.ok outC8 := by
    with_unfolding_all rfl
  refine ⟨hsucc, ?_⟩
  exact (C8_amended_bbox_parse.1 preC8 "minx 1" ["1.5 2.5 0.5 3.5 0.25 4.5"] "end end"
    ["DATA ascii"] [boxC8] st0C8 outC8
    (by with_unfolding_all rfl) rfl rfl
    (of_decide_eq_true (by with_unfolding_all rfl))
    (by with_unfolding_all rfl)
    (.cons (by with_unfolding_all rfl) .nil)
    (by
      intro ln hln
      simp only [List.mem_singleton] at hln
      subst hln
      exact of_decide_eq_true (by with_unfolding_all rfl))
    (by with_unfolding_all rfl)
    (of_decide_eq_true (by with_unfolding_all rfl))
    (by with_unfolding_all rfl)
    (by
      intro ln hln
      simp only [List.mem_singleton] at hln
      subst hln
      exact of_decide_eq_true (by with_unfolding_all rfl))
    hsucc).1

/-! ### Claim C9 — header defaults -/

/-- C9: after a successful parse, a header with no `count` key gets the
all-ones vector sized to `fields`, no `viewpoint` key gets
`[0,0,0,1,0,0,0]`, no `version` key gets `".7"`; and a key that was
parsed into the metadata by the loop is kept as parsed by the defaults
stage. -/
theorem C9_header_defaults (lines : List String) (out : PMeta)
    (hok : parse_header lines = Except.ok out) :
    ((∀ ln ∈ lines, keyOf ln ≠ some "count") → ∀ fl, out.fields = some fl →
      out.count = some (List.replicate fl.length 1)) ∧
    ((∀ ln ∈ lines, keyOf ln ≠ some "viewpoint") →
      out.viewpoint = some [0, 0, 0, 1, 0, 0, 0]) ∧
    ((∀ ln ∈ lines, keyOf ln ≠ some "version") → out.version = some ".7") ∧
    (∀ pm, parseLoop {} lines = Except.ok pm →
      (∀ c, pm.count = some c → out.count = some c) ∧
      (∀ vp, pm.viewpoint = some vp → out.viewpoint = some vp) ∧
      (∀ vs, pm.version = some vs → out.version = some vs)) := by
  unfold parse_header at hok
  cases hpl : parseLoop {} lines with
  | error e => rw [hpl] at hok; cases hok
  | ok pm =>
    rw [hpl] at hok
    have hspec := applyDefaults_spec pm out hok
    have hpres := parseLoop_preserve lines {} pm hpl
    refine ⟨fun hall fl hfl => ?_, fun hall => ?_, fun hall => ?_, fun pm' hpl' => ?_⟩
    · obtain ⟨fl', hfl', hc⟩ := hspec.2.2.1 (hpres.1 hall)
      rw [hspec.2.1, hfl'] at hfl
      cases hfl
      exact hc
    · exact hspec.2.2.2.2.1 (hpres.2.1 hall)
    · exact hspec.2.2.2.2.2.2.1 (hpres.2.2 hall)
    · have hpm : pm' = pm := by
        cases hpl'
        rfl
      subst hpm
      exact ⟨hspec.2.2.2.1, hspec.2.2.2.2.2.1, hspec.2.2.2.2.2.2.2⟩

/-- C9 witnessed: with all three keys absent, the parsed metadata holds
the all-ones count, the default viewpoint and version `".7"`. -/
theorem C9_header_defaults_witness :
    parse_header lines9 = Except.ok out9 ∧
    out9.count = some (List.replicate 2 1) ∧
    out9.viewpoint = some [0, 0, 0, 1, 0, 0, 0] ∧
    out9.version = some ".7" := by
  have hok : parse_header lines9 = Except.ok out9 := by with_unfolding_all rfl
  have h := C9_header_defaults lines9 out9 hok
  refine ⟨hok, ?_, ?_, ?_⟩
  · exact h.1 (of_decide_eq_true (by with_unfolding_all rfl)) ["x", "y"] rfl
  · exact h.2.1 (of_decide_eq_true (by with_unfolding_all rfl))
  · exact h.2.2.1 (of_decide_eq_true (by with_unfolding_all rfl))

end LiDAR

